import Mathlib

/-!
Verification of the paymatch payment-aggregator core.

The Go source is shallowly embedded: each SQL statement or handler body is
translated into a pure Lean function over an explicit table / system state,
machine integers become `Int` (no operation here can overflow an `int64` on
the inputs the handlers accept, so no modular wrap is modelled), and
fallible operations return `Option` or `Except`.  External collaborators
(the Postgres engine itself, the Go standard library's AES-GCM object and
regexp engine and the Daraja provider) are modelled as parameters with
their documented contracts, exactly as the repository treats them as
injected dependencies.
-/

namespace Paymatch


/-- Drop leading whitespace characters. -/
def trimLeft : List Char → List Char
  | [] => []
  | c :: cs => if c.isWhitespace then trimLeft cs else c :: cs

/-- Model of Go's `strings.TrimSpace`: drop leading and trailing
whitespace. -/
def trimString (s : String) : String :=
  String.mk (List.reverse (trimLeft (List.reverse (trimLeft s.data))))

/-! ## Event store (`internal/store/postgres/events.go`, `event_repository.go`)

A row of the `payment_events` table.  `processing_status` has the schema
default `pending` (migration `006_processing_status.sql`). -/

structure EventRow where
  id                  : Nat
  tenantId            : Nat
  providerCredentialId : Nat
  eventType           : String
  externalId          : String
  payloadJson         : String
  invoiceRef          : String
  msisdn              : String
  amount              : Int
  transactionId       : String
  status              : String
  responseDescription : String
  processingStatus    : String
  processedAt         : Option Nat
  deriving Repr, DecidableEq

/-- The `payment_events` table: rows plus the sequence that allocates ids. -/
structure EventsTable where
  rows   : List EventRow
  nextId : Nat
  deriving Repr, DecidableEq

/-- The compound business key `(tenant_id, event_type, external_id)` that the
unique constraint `UQ(tenant_id, event_type, external_id)` enforces. -/
def keyMatches (tid : Nat) (ty ext : String) (r : EventRow) : Bool :=
  r.tenantId == tid && r.eventType == ty && r.externalId == ext

/-- Number of rows carrying a given compound key. -/
def countKey (t : EventsTable) (tid : Nat) (ty ext : String) : Nat :=
  (t.rows.filter (keyMatches tid ty ext)).length

/-- The argument record of `Repo.SaveEvent` (Go type `provider.Event`). -/
structure ProviderEvent where
  type       : String
  externalId : String
  amount     : Int
  msisdn     : String
  invoiceRef : String
  rawJson    : String
  deriving Repr, DecidableEq

/-- The `DO UPDATE SET` clause of `Repo.SaveEvent`:
`payload_json` is refreshed unconditionally, `invoice_ref` and `msisdn`
only via `COALESCE(NULLIF(new,''), old)`, `amount` only when the new value
is positive; `processing_status` is not in the `SET` list. -/
def mergeEvent (old : EventRow) (evt : ProviderEvent) : EventRow :=
  { old with
    payloadJson := evt.rawJson
    invoiceRef  := if evt.invoiceRef ≠ "" then evt.invoiceRef else old.invoiceRef
    msisdn      := if evt.msisdn ≠ "" then evt.msisdn else old.msisdn
    amount      := if evt.amount > 0 then evt.amount else old.amount }

/-- `Repo.SaveEvent`: `INSERT ... ON CONFLICT (tenant_id, event_type,
external_id) DO UPDATE ... RETURNING id`.  Returns the updated table and
the returned id (the existing row's id on conflict). -/
def saveEvent (t : EventsTable) (tenantId credId : Nat) (evt : ProviderEvent) :
    EventsTable × Nat :=
  match t.rows.find? (keyMatches tenantId evt.type evt.externalId) with
  | some r =>
      ({ t with
         rows := t.rows.map fun r' =>
           if keyMatches tenantId evt.type evt.externalId r' then mergeEvent r' evt else r' },
       r.id)
  | none =>
      let row : EventRow :=
        { id := t.nextId
          tenantId := tenantId
          providerCredentialId := credId
          eventType := evt.type
          externalId := evt.externalId
          payloadJson := evt.rawJson
          invoiceRef := evt.invoiceRef
          msisdn := evt.msisdn
          amount := evt.amount
          transactionId := ""
          status := ""
          responseDescription := ""
          processingStatus := "pending"
          processedAt := none }
      ({ rows := t.rows ++ [row], nextId := t.nextId + 1 }, t.nextId)

/-- Folding a sequence of appends (each `SaveEvent` call in order). -/
def appendSeq (t : EventsTable) (tenantId credId : Nat) :
    List ProviderEvent → EventsTable
  | [] => t
  | e :: es => appendSeq (saveEvent t tenantId credId e).1 tenantId credId es

/-- The `DO UPDATE SET` clause of `eventRepository.insert`
(`event_repository.go`): like `mergeEvent` but also refreshing
`transaction_id`, `status` and `response_description` when non-empty;
`processing_status` is again not in the `SET` list. -/
def mergeEventFull (old : EventRow) (e : EventRow) : EventRow :=
  { old with
    payloadJson := e.payloadJson
    amount := if e.amount > 0 then e.amount else old.amount
    msisdn := if e.msisdn ≠ "" then e.msisdn else old.msisdn
    invoiceRef := if e.invoiceRef ≠ "" then e.invoiceRef else old.invoiceRef
    transactionId := if e.transactionId ≠ "" then e.transactionId else old.transactionId
    status := if e.status ≠ "" then e.status else old.status
    responseDescription :=
      if e.responseDescription ≠ "" then e.responseDescription else old.responseDescription }

/-- `eventRepository.insert`: upsert of a full domain event on the same
conflict target, returning the row id. -/
def eventRepositoryInsert (t : EventsTable) (e : EventRow) : EventsTable × Nat :=
  match t.rows.find? (keyMatches e.tenantId e.eventType e.externalId) with
  | some r =>
      ({ t with
         rows := t.rows.map fun r' =>
           if keyMatches e.tenantId e.eventType e.externalId r' then mergeEventFull r' e else r' },
       r.id)
  | none =>
      ({ rows := t.rows ++ [{ e with id := t.nextId, processingStatus := e.processingStatus }],
         nextId := t.nextId + 1 }, t.nextId)

/-! ## Payments (`internal/store/postgres/payments.go`)

A row of the `payments` table.  `msisdn_hash` and `provider_credential_id`
are nullable; `currency` has schema default `KES` and `status` default
`pending` (`001_init.sql`). -/

structure PaymentRow where
  id                   : Nat
  tenantId             : Nat
  invoiceNo            : String
  msisdnHash           : Option String
  amount               : Int
  currency             : String
  status               : String
  method               : String
  providerCredentialId : Option Nat
  externalId           : String
  createdAt            : Nat
  updatedAt            : Nat
  deriving Repr, DecidableEq

structure PaymentsTable where
  rows   : List PaymentRow
  nextId : Nat
  deriving Repr, DecidableEq

/-- The idempotency key `(tenant_id, external_id)` enforced by
`UQ(tenant_id, external_id)` on `payments`. -/
def payKey (tid : Nat) (ext : String) (r : PaymentRow) : Bool :=
  r.tenantId == tid && r.externalId == ext

/-- `Repo.UpsertPendingPayment` (used during STK initiation):
`INSERT ... VALUES ($1,$2,$3,'pending','mpesa',$4,$5) ON CONFLICT
(tenant_id, external_id) DO UPDATE SET amount = EXCLUDED.amount,
invoice_no = EXCLUDED.invoice_no, updated_at = now()`.  The insert does not
list `msisdn_hash` or `currency`, so they take NULL and the schema default. -/
def upsertPendingPayment (t : PaymentsTable) (now : Nat) (tenantId credId : Nat)
    (invoice : String) (amount : Int) (externalId : String) : PaymentsTable :=
  match t.rows.find? (payKey tenantId externalId) with
  | some _ =>
      { t with
        rows := t.rows.map fun r =>
          if payKey tenantId externalId r then
            { r with amount := amount, invoiceNo := invoice, updatedAt := now }
          else r }
  | none =>
      { rows := t.rows ++ [{
          id := t.nextId
          tenantId := tenantId
          invoiceNo := invoice
          msisdnHash := none
          amount := amount
          currency := "KES"
          status := "pending"
          method := "mpesa"
          providerCredentialId := some credId
          externalId := externalId
          createdAt := now
          updatedAt := now }]
        nextId := t.nextId + 1 }

/-! ## Dispatch queue (`internal/store/postgres/queue.go`)

A row of the `event_queue` table (unique on `event_id`;
`003_event_queue.sql`). -/

structure QueueRow where
  id            : Nat
  tenantId      : Nat
  eventId       : Nat
  status        : String
  attempts      : Int
  nextAttemptAt : Nat
  lastError     : String
  updatedAt     : Nat
  deriving Repr, DecidableEq

structure QueueTable where
  rows   : List QueueRow
  nextId : Nat
  deriving Repr, DecidableEq

/-- `Repo.EnqueueEvent`: `INSERT INTO event_queue (tenant_id, event_id)
VALUES ($1,$2) ON CONFLICT (event_id) DO UPDATE SET status='pending',
attempts=0, next_attempt_at=now(), updated_at=now()`.  The reset clause is
unconditional: it fires for every prior status. -/
def enqueueEvent (t : QueueTable) (now : Nat) (tenantId eventId : Nat) : QueueTable :=
  match t.rows.find? (fun q => q.eventId == eventId) with
  | some _ =>
      { t with
        rows := t.rows.map fun q =>
          if q.eventId == eventId then
            { q with status := "pending", attempts := 0, nextAttemptAt := now, updatedAt := now }
          else q }
  | none =>
      { rows := t.rows ++ [{
          id := t.nextId
          tenantId := tenantId
          eventId := eventId
          status := "pending"
          attempts := 0
          nextAttemptAt := now
          lastError := ""
          updatedAt := now }]
        nextId := t.nextId + 1 }

/-! ## STK initiation (`internal/http/handlers/stk.go`)

The handler is embedded over its decision points: the authenticated tenant
(from the request context), the decoded body, the resolved credential id,
the provider call outcome and whether the payment write fails.  The result
is the payments table after the request plus the HTTP status and the
response body (present only on success). -/

structure StkReq where
  amount      : Int
  phone       : String
  accountRef  : String
  description : String
  shortcode   : String
  deriving Repr, DecidableEq

structure STKPushResp where
  checkoutRequestID : String
  customerMessage   : String
  deriving Repr, DecidableEq

/-- `CreateSTK`: validate, resolve the credential, call the provider, then
`UpsertPendingPayment`; a failing write yields 500 and no success body. -/
def createSTK (tenantAuth : Option Nat) (bodyIn : Option StkReq) (credResolve : Option Nat)
    (stkOut : Except Unit STKPushResp) (dbFails : Bool) (t : PaymentsTable) (now : Nat) :
    PaymentsTable × Nat × Option STKPushResp :=
  match tenantAuth with
  | none => (t, 401, none)
  | some tid =>
    match bodyIn with
    | none => (t, 400, none)
    | some req =>
      if req.amount ≤ 0 ∨ req.phone = "" ∨ req.accountRef = "" then (t, 400, none)
      else match credResolve with
      | none => (t, 404, none)
      | some credId =>
        match stkOut with
        | .error _ => (t, 502, none)
        | .ok out =>
          if dbFails then (t, 500, none)
          else (upsertPendingPayment t now tid credId req.accountRef req.amount
                  out.checkoutRequestID, 200, some out)

/-! ## C2B validation (`internal/http/handlers/c2b.go`, `MpesaC2BValidation`)

The Go regexp engine is an external dependency; the match relation is a
parameter `rxMatch : pattern → input → Bool` (the code calls
`regexp.MatchString(strings.TrimSpace(cred.BillRefRegex), cb.BillRefNumber)`
and treats a compile error as a non-match). -/

structure C2BCredential where
  c2bMode         : String
  billRefRequired : Bool
  billRefRegex    : String
  deriving Repr, DecidableEq

structure C2BValidationResponse where
  resultCode : Int
  resultDesc : String
  deriving Repr, DecidableEq

/-- `MpesaC2BValidation`: resolve the credential, apply the bill-ref rules
of the credential's C2B mode, and answer; the handler performs no table
write, so the system state is returned unchanged. -/
def mpesaC2BValidation (rxMatch : String → String → Bool)
    (credLookup : Option C2BCredential) (billRefNumber : String)
    (st : EventsTable × PaymentsTable) :
    (EventsTable × PaymentsTable) × C2BValidationResponse :=
  match credLookup with
  | none => (st, ⟨1, "Unknown ShortCode"⟩)
  | some cred =>
    if cred.c2bMode = "paybill" then
      if cred.billRefRequired ∧ trimString billRefNumber = "" then
        (st, ⟨1, "BillRef required"⟩)
      else if trimString cred.billRefRegex ≠ "" ∧ rxMatch (trimString cred.billRefRegex) billRefNumber = false then
        (st, ⟨1, "BillRef invalid"⟩)
      else (st, ⟨0, "Accepted"⟩)
    else (st, ⟨0, "Accepted"⟩)

/-! ## Dynamic callback values (`internal/services/event/processor.go`,
`internal/provider/mpesa/webhook.go`)

A decoded JSON callback-metadata value.  With `encoding/json`, JSON
numbers decode to `float64` and strings to `string`; `json.Number` only
appears under `UseNumber`, which the repository never sets, and is
subsumed by the `num` tag.  Amounts in the callbacks are whole-number
decimals, so numbers carry an `Int`. -/

inductive JVal where
  | num (n : Int)
  | str (s : String)
  | other
  deriving Repr, DecidableEq

/-- Model of `strconv.ParseFloat` followed by `int64` truncation on plain
decimal literals `[+-]digits[.digits]` (exponent and special forms are out
of the model's scope and map to `none`).  Truncation toward zero keeps the
signed integer part. -/
def parseGoFloatTrunc (s : String) : Option Int :=
  let cs := s.data
  let signedBody : Bool × List Char :=
    match cs with
    | '-' :: rest => (true, rest)
    | '+' :: rest => (false, rest)
    | _ => (false, cs)
  let neg := signedBody.1
  let body := signedBody.2
  let intPart := body.takeWhile (fun c => c ≠ '.')
  let rest := body.dropWhile (fun c => c ≠ '.')
  let fracOk : Bool :=
    match rest with
    | [] => true
    | '.' :: frac => frac.all Char.isDigit
    | _ => false
  if intPart.all Char.isDigit ∧ fracOk = true ∧ body ≠ [] ∧ (intPart ≠ [] ∨ rest.length > 1) then
    let v : Nat := intPart.foldl (fun acc c => acc * 10 + (c.toNat - 48)) 0
    some (if neg then -(v : Int) else (v : Int))
  else none

/-- The `Amount` arm of `stkPayload.extractAmount`: `float64` values are
truncated, strings go through `ParseFloat`; a value of any other shape
yields no amount and the loop continues. -/
def stkAmountValue : JVal → Option Int
  | .num n => some n
  | .str s => parseGoFloatTrunc s
  | .other => none

/-- `stkPayload.extractAmount` (worker re-parse): first `Amount` item with
a convertible value wins; otherwise 0. -/
def extractAmount (items : List (String × JVal)) : Int :=
  match items.findSome? (fun it => if it.1 = "Amount" then stkAmountValue it.2 else none) with
  | some n => n
  | none => 0

/-- `stkPayload.extractMSISDN` (worker re-parse): `float64` is printed
with `%.0f`, strings pass through. -/
def extractMSISDN (items : List (String × JVal)) : String :=
  match items.findSome? (fun it =>
    if it.1 = "PhoneNumber" then
      match it.2 with
      | .num n => some (toString n)
      | .str s => some s
      | .other => none
    else none) with
  | some s => s
  | none => ""

/-- `c2bPayload.extractAmount` (worker re-parse of a C2B confirmation):
`TransAmount` accepted as number or numeric string, defaulting to 0. -/
def c2bExtractAmount (payload : List (String × JVal)) : Int :=
  match payload.find? (fun kv => kv.1 == "TransAmount") with
  | some kv =>
      match kv.2 with
      | .num n => n
      | .str s => (parseGoFloatTrunc s).getD 0
      | .other => 0
  | none => 0

/-- The metadata walk of `WebhookService.parseSTKCallback` (the adapter):
`Amount` is read only through a `float64` type assertion, so a
string-valued amount leaves the accumulator untouched; assignment
semantics make the last convertible item win. -/
def adapterSTKAmount (items : List (String × JVal)) : Int :=
  items.foldl (fun acc it =>
    if it.1 = "Amount" then
      match it.2 with
      | .num n => n
      | _ => acc
    else acc) 0

/-- The `PhoneNumber` walk of `WebhookService.parseSTKCallback`: number or
string accepted. -/
def adapterSTKMsisdn (items : List (String × JVal)) : String :=
  items.foldl (fun acc it =>
    if it.1 = "PhoneNumber" then
      match it.2 with
      | .num n => toString n
      | .str s => s
      | .other => acc
    else acc) ""

/-! ## Event processing-status transitions (`internal/domain/event/event.go`,
`internal/store/postgres/event_repository.go`) -/

inductive PStatus where
  | pending
  | queued
  | completed
  | failed
  deriving Repr, DecidableEq

/-- The domain object fields the transition methods read and write. -/
structure DomainEvent where
  processingStatus : PStatus
  processedAt      : Option Nat
  deriving Repr, DecidableEq

/-- `Event.CanChangeStatus`: the permitted transition relation. -/
def canChangeStatus (cur new : PStatus) : Bool :=
  match cur with
  | .pending => new == .queued || new == .completed || new == .failed
  | .queued => new == .completed || new == .failed
  | .completed => new == .queued
  | .failed => new == .queued

/-- `Event.MarkForReprocessing` (domain object): rejected when already
pending, otherwise sets `queued` and clears `processed_at`. -/
def markForReprocessing (e : DomainEvent) : Except String DomainEvent :=
  if e.processingStatus == .pending then
    .error "event is already pending processing"
  else
    .ok { e with processingStatus := .queued, processedAt := none }

/-- `Event.UpdateProcessingStatus`: guarded by `CanChangeStatus`; stamps
`processed_at` on entering `completed` or `failed`. -/
def updateProcessingStatus (e : DomainEvent) (s : PStatus) (now : Nat) :
    Except String DomainEvent :=
  if canChangeStatus e.processingStatus s then
    .ok { e with processingStatus := s, processedAt := if s == .completed || s == .failed then some now else e.processedAt }
  else
    .error "cannot change status"

/-- `eventRepository.MarkForReprocessing`: `UPDATE payment_events SET
processing_status='queued', processed_at=NULL WHERE id=$1 AND
tenant_id=$2` — no condition on the current status. -/
def repoMarkForReprocessing (t : EventsTable) (tenantId eventId : Nat) : EventsTable :=
  { t with rows := t.rows.map fun r =>
      if r.id == eventId && r.tenantId == tenantId then
        { r with processingStatus := "queued", processedAt := none }
      else r }

/-- `eventRepository.MarkProcessed`: `UPDATE payment_events SET
processing_status=$1, processed_at=now() WHERE id=$2` — unconditional. -/
def repoMarkProcessed (t : EventsTable) (id : Nat) (status : String) (now : Nat) :
    EventsTable :=
  { t with rows := t.rows.map fun r =>
      if r.id == id then { r with processingStatus := status, processedAt := some now }
      else r }

/-! ## Reconciliation write path (`internal/services/payment/service.go`,
`internal/services/event/processor.go`, `internal/store/postgres/unit_of_work.go`)

The MSISDN hash (SHA-256 of the phone number, computed by
`payment.MSISDN.Hash`) is an external-library call; it is a parameter
`hash : String → String`. -/

/-- Map characters to lower case (Go `strings.ToLower` on ASCII input). -/
def lowerString (s : String) : String := String.mk (s.data.map Char.toLower)

/-- `payment.NewMSISDN`: trim, reject empty and out-of-range lengths,
normalize to lower case. -/
def newMSISDN (phone : String) : Except String String :=
  let n := trimString phone
  if n = "" then .error "phone number cannot be empty"
  else if n.length < 10 ∨ n.length > 15 then .error "invalid phone number format"
  else .ok (lowerString n)

/-- `Service.mapStatusFromProvider`. -/
def mapStatusFromProvider (s : String) : String :=
  if s = "completed" ∨ s = "0" then "completed"
  else if s = "failed" ∨ s = "1" then "failed"
  else if s = "cancelled" then "cancelled"
  else "pending"

/-- The domain `payment.Payment` object (`internal/domain/payment`);
`id = 0` means not yet saved. -/
structure DomainPayment where
  id         : Nat
  tenantId   : Nat
  invoiceNo  : String
  amount     : Int
  currency   : String
  status     : String
  method     : String
  externalId : String
  msisdnHash : String
  createdAt  : Nat
  updatedAt  : Nat
  deriving Repr, DecidableEq

/-- `payment.NewPayment`: validates tenant, positive amount and non-blank
external id; starts `pending` with currency/method as passed. -/
def newPayment (tenantId : Nat) (invoice : String) (amount : Int)
    (externalId : String) (msisdnHash : String) (now : Nat) :
    Except String DomainPayment :=
  if tenantId = 0 then .error "invalid tenant ID"
  else if amount ≤ 0 then .error "amount must be positive"
  else if trimString externalId = "" then .error "external ID is required"
  else .ok { id := 0, tenantId := tenantId, invoiceNo := invoice, amount := amount, currency := "KES", status := "pending", method := "mpesa", externalId := externalId, msisdnHash := msisdnHash, createdAt := now, updatedAt := now }

/-- `Payment.Update`: business-rule update — rejected unless the payment
is still pending or the new status is `completed`/`failed`; non-empty
invoice, positive amount, non-empty status and a supplied MSISDN hash
overwrite. -/
def paymentDomainUpdate (p : DomainPayment) (invoice : String) (amount : Int)
    (status : String) (msHash : Option String) (now : Nat) :
    Except String DomainPayment :=
  if ¬(p.status = "pending") ∧ ¬(status = "completed") ∧ ¬(status = "failed") then
    .error "payment cannot be updated"
  else if amount < 0 then .error "amount cannot be negative"
  else .ok { p with invoiceNo := if invoice ≠ "" then invoice else p.invoiceNo, amount := if amount > 0 then amount else p.amount, status := if status ≠ "" then status else p.status, msisdnHash := msHash.getD p.msisdnHash, updatedAt := now }

/-- `paymentRepository.Save` through the pool: insert when `id = 0`
(`provider_credential_id` is not in the insert's column list and stays
NULL), otherwise update every mapped column of the row with that id. -/
def paymentRepositorySave (t : PaymentsTable) (p : DomainPayment) : PaymentsTable :=
  if p.id = 0 then
    { rows := t.rows ++ [{
        id := t.nextId
        tenantId := p.tenantId
        invoiceNo := p.invoiceNo
        msisdnHash := some p.msisdnHash
        amount := p.amount
        currency := p.currency
        status := p.status
        method := p.method
        providerCredentialId := none
        externalId := p.externalId
        createdAt := p.createdAt
        updatedAt := p.updatedAt }]
      nextId := t.nextId + 1 }
  else
    { t with rows := t.rows.map fun r =>
        if r.id == p.id then
          { r with invoiceNo := p.invoiceNo, amount := p.amount, currency := p.currency, status := p.status, method := p.method, externalId := p.externalId, msisdnHash := some p.msisdnHash, updatedAt := p.updatedAt }
        else r }

/-- The domain object `FindByExternalID` builds from a row (`scanPayment`:
NULL columns become Go zero values). -/
def domainOfRow (r : PaymentRow) : DomainPayment :=
  { id := r.id, tenantId := r.tenantId, invoiceNo := r.invoiceNo, amount := r.amount, currency := r.currency, status := r.status, method := r.method, externalId := r.externalId, msisdnHash := r.msisdnHash.getD "", createdAt := r.createdAt, updatedAt := r.updatedAt }

/-- `payment.Service.ProcessPaymentEvent`: validate the MSISDN, then
either create-and-save a new payment (status applied through
`Payment.Update`) or update-and-save the existing one.  All writes go
through the service's own pool-backed repository. -/
def svcProcessPaymentEvent (hash : String → String) (t : PaymentsTable) (now : Nat)
    (tenantId credentialId : Nat) (externalId : String) (amount : Int)
    (msisdnStr invoice status : String) : Except String PaymentsTable :=
  match (if msisdnStr ≠ "" then (newMSISDN msisdnStr).map some else .ok none) with
  | .error e => .error e
  | .ok msisdn =>
    match t.rows.find? (payKey tenantId externalId) with
    | none =>
        match newPayment tenantId invoice amount externalId
                ((msisdn.map hash).getD "") now with
        | .error e => .error e
        | .ok p =>
            match (if status ≠ "" then
                     paymentDomainUpdate p "" 0 (mapStatusFromProvider status) none now
                   else .ok p) with
            | .error e => .error e
            | .ok p' => .ok (paymentRepositorySave t p')
    | some r =>
        match paymentDomainUpdate (domainOfRow r) invoice amount
                (mapStatusFromProvider status) (msisdn.map hash) now with
        | .error e => .error e
        | .ok p' => .ok (paymentRepositorySave t p')

/-- The whole persistent state the reconciliation path touches. -/
structure SysState where
  events   : EventsTable
  payments : PaymentsTable
  deriving Repr, DecidableEq

/-- `Processor.processPaymentEvent`: a transaction is begun, but the
payment write goes through `paymentSvc`, whose repository is the
pool-backed one — it commits on its own; only the event's `MarkProcessed`
runs inside the transaction.  `commitOk = false` models a failing
in-transaction mark or commit: the buffered event update is rolled back
while the payment write stays.  When the payment step fails, the event is
marked `failed` through the pool repository and the function returns the
mark's (nil) error. -/
def processPaymentEvent (hash : String → String) (commitOk : Bool) (st : SysState)
    (evtId tenantId credId : Nat) (externalId reference msisdn : String)
    (amount : Int) (status : String) (now : Nat) : SysState × Except String Unit :=
  match svcProcessPaymentEvent hash st.payments now tenantId credId externalId
          amount msisdn reference status with
  | .error _ =>
      ({ st with events := repoMarkProcessed st.events evtId "failed" now }, .ok ())
  | .ok pt =>
      if commitOk then
        ({ events := repoMarkProcessed st.events evtId "completed" now, payments := pt }, .ok ())
      else
        ({ st with payments := pt }, .error "failed to mark event processed")

/-! ## Ingestion controllers (`internal/http/handlers/webhooks.go`,
`internal/http/handlers/c2b.go`) -/

/-- `event.isValidEventType`. -/
def isValidEventType (ty : String) : Bool :=
  ty == "stk" || ty == "c2b" || ty == "b2c" || ty == "balance" || ty == "bulk_transfer"

/-- `Processor.ProcessEvent` dispatch: STK and C2B events re-parse the raw
payload (`decoded` is the extraction outcome: reference, msisdn, amount,
result-code-zero; `none` models an undecodable payload) and run the
payment path; B2C and unknown types are only marked completed.  The event
id used for every mark is the domain event's `ID` field. -/
def processEvent (hash : String → String) (commitOk : Bool) (st : SysState)
    (evtType : String) (evtId tenantId credId : Nat) (externalId : String)
    (decoded : Option (String × String × Int × Bool)) (now : Nat) :
    SysState × Except String Unit :=
  if evtType = "stk" then
    match decoded with
    | none => ({ st with events := repoMarkProcessed st.events evtId "failed" now }, .ok ())
    | some (ref, ms, amt, success) =>
        processPaymentEvent hash commitOk st evtId tenantId credId externalId ref ms amt
          (if success then "completed" else "failed") now
  else if evtType = "c2b" then
    match decoded with
    | none => ({ st with events := repoMarkProcessed st.events evtId "failed" now }, .ok ())
    | some (ref, ms, amt, _) =>
        processPaymentEvent hash commitOk st evtId tenantId credId externalId ref ms amt
          "completed" now
  else
    ({ st with events := repoMarkProcessed st.events evtId "completed" now }, .ok ())

/-- The credential fields `WebhookByShortcode` uses. -/
structure WebhookCred where
  tenantId     : Nat
  credId       : Nat
  webhookToken : String
  deriving Repr, DecidableEq

/-- `WebhookByShortcode` (the pure-architecture ingestion endpoint):
resolve the credential, validate, parse, build a fresh domain event
(whose `ID` is the Go zero value 0 — `event.NewEvent` never assigns one)
and hand it to `Processor.ProcessEvent`; answer 200 when processing
returned no error.  No step appends the event to the event store. -/
def webhookByShortcode (hash : String → String) (commitOk : Bool) (shortcode : String)
    (credLookup : Option WebhookCred) (providerAvailable validateOk : Bool)
    (parsed : Option ProviderEvent) (decoded : Option (String × String × Int × Bool))
    (st : SysState) (now : Nat) : SysState × Nat :=
  if shortcode = "" then (st, 400)
  else match credLookup with
  | none => (st, 404)
  | some cred =>
    if ¬providerAvailable then (st, 500)
    else if ¬validateOk then (st, 401)
    else match parsed with
    | none => (st, 400)
    | some pe =>
      if ¬(cred.tenantId ≠ 0 ∧ cred.credId ≠ 0 ∧ isValidEventType pe.type
            ∧ trimString pe.externalId ≠ "") then (st, 500)
      else match processEvent hash commitOk st pe.type 0 cred.tenantId cred.credId
                   pe.externalId decoded now with
      | (st', .ok _) => (st', 200)
      | (st', .error _) => (st', 500)

/-- `Repo.UpsertPaymentByExternalID` (used best-effort by the C2B
confirmation handler): rejects an empty external id, otherwise upserts on
`(tenant_id, external_id)`; on conflict `amount` overwrites, `invoice_no`
only when non-empty, `updated_at` refreshes. -/
def upsertPaymentByExternalID (hash : String → String) (t : PaymentsTable) (now : Nat)
    (tenantId credId : Nat) (externalId invoiceNo : String) (amount : Int)
    (msisdn : String) : Except String PaymentsTable :=
  if externalId = "" then .error "externalID required"
  else match t.rows.find? (payKey tenantId externalId) with
  | some _ =>
      let f : PaymentRow → PaymentRow := fun r =>
        if payKey tenantId externalId r then
          { r with amount := amount, invoiceNo := if invoiceNo = "" then r.invoiceNo else invoiceNo, updatedAt := now }
        else r
      .ok { t with rows := t.rows.map f }
  | none =>
      let row : PaymentRow :=
        { id := t.nextId
          tenantId := tenantId
          invoiceNo := invoiceNo
          msisdnHash := some (hash msisdn)
          amount := amount
          currency := "KES"
          status := "pending"
          method := "mpesa"
          providerCredentialId := some credId
          externalId := externalId
          createdAt := now
          updatedAt := now }
      .ok { rows := t.rows ++ [row], nextId := t.nextId + 1 }

/-- The decoded C2B confirmation body (`c2bCallback`), together with the
bytes it was re-marshalled from. -/
structure C2BBody where
  transID           : String
  transAmount       : String
  businessShortCode : String
  billRefNumber     : String
  msisdn            : String
  raw               : String
  deriving Repr, DecidableEq

/-- `MpesaC2BConfirmation`: save the raw event first and answer 500 when
that fails; enqueue and payment upsert are best-effort; ACK 200 only
after the durable save.  `parseAmt` stands for `strconv.ParseFloat`
followed by `int(f + 0.5)`; `saveFails`/`enqueueFails`/`upsertFails`
model storage errors of the three writes. -/
def mpesaC2BConfirmation (hash : String → String) (parseAmt : String → Int)
    (saveFails enqueueFails upsertFails : Bool)
    (credLookup : Option (Nat × Nat)) (cb : C2BBody)
    (ev : EventsTable) (pay : PaymentsTable) (q : QueueTable) (now : Nat) :
    (EventsTable × PaymentsTable × QueueTable) × Nat :=
  match credLookup with
  | none => ((ev, pay, q), 404)
  | some (tid, cid) =>
      let amt := if trimString cb.transAmount ≠ "" then parseAmt (trimString cb.transAmount) else 0
      let invoice := trimString cb.billRefNumber
      if saveFails then ((ev, pay, q), 500)
      else
        let saved := saveEvent ev tid cid
          ⟨"c2b", trimString cb.transID, amt, trimString cb.msisdn, invoice, cb.raw⟩
        let q' := if enqueueFails then q else enqueueEvent q now tid saved.2
        let pay' :=
          if upsertFails then pay
          else match upsertPaymentByExternalID hash pay now tid cid (trimString cb.transID)
                       invoice amt (trimString cb.msisdn) with
               | .ok p => p
               | .error _ => pay
        ((saved.1, pay', q'), 200)

/-! ## Secret box (`internal/crypto/crypto.go` `EncryptString`/`DecryptString`
and the tenant service's `encrypt`/`decrypt`)

Bytes are naturals below 256.  The repository's own contribution is the
composition: fresh 12-byte nonce, `gcm.Seal(nonce, nonce, plaintext, nil)`
(ciphertext appended to the nonce), standard padded base64; and on
decryption base64-decode, length check against the nonce size, split, and
`gcm.Open`.  Base64 is implemented here; the AES-GCM object of the Go
standard library is a parameter pair `seal`/`openAEAD` carrying its
documented contract (`Open` inverts `Seal`; `Open` fails on a tag that
does not verify, in particular under a different key). -/

def b64chars : List Char :=
  "ABCDEFGHIJKLMNOPQRSTUVWXYZabcdefghijklmnopqrstuvwxyz0123456789+/".data

def encChar (i : Nat) : Char := b64chars.getD i 'A'

def decChar (c : Char) : Option Nat := b64chars.findIdx? (fun x => x == c)

/-- Standard base64 encoding, three bytes to four characters, padded. -/
def base64EncodeChunks : List Nat → List Char
  | a :: b :: c :: rest =>
      [encChar (a / 4), encChar ((a % 4) * 16 + b / 16),
       encChar ((b % 16) * 4 + c / 64), encChar (c % 64)]
        ++ base64EncodeChunks rest
  | [a, b] => [encChar (a / 4), encChar ((a % 4) * 16 + b / 16), encChar ((b % 16) * 4), '=']
  | [a] => [encChar (a / 4), encChar ((a % 4) * 16), '=', '=']
  | [] => []

def base64Encode (bytes : List Nat) : String := String.mk (base64EncodeChunks bytes)

/-- Standard base64 decoding, four characters to three bytes, rejecting
characters outside the alphabet, misplaced padding and lengths that are
not a multiple of four. -/
def base64DecodeChunks : List Char → Option (List Nat)
  | [] => some []
  | c0 :: c1 :: c2 :: c3 :: rest =>
    match decChar c0, decChar c1 with
    | some s0, some s1 =>
      if c2 = '=' then
        if c3 = '=' ∧ rest = [] then some [s0 * 4 + s1 / 16] else none
      else
        match decChar c2 with
        | some s2 =>
          if c3 = '=' then
            if rest = [] then some [s0 * 4 + s1 / 16, (s1 % 16) * 16 + s2 / 4] else none
          else
            match decChar c3 with
            | some s3 =>
              match base64DecodeChunks rest with
              | some bs =>
                  some ([s0 * 4 + s1 / 16, (s1 % 16) * 16 + s2 / 4, (s2 % 4) * 64 + s3] ++ bs)
              | none => none
            | none => none
        | none => none
    | _, _ => none
  | _ => none

def base64Decode (s : String) : Option (List Nat) := base64DecodeChunks s.data

/-- `encrypt` (tenant service) / `EncryptString`: with a 32-byte key,
base64 of the nonce followed by the sealed bytes; the freshly drawn
random nonce is the `nonce` argument, `sealF` is `gcm.Seal`. -/
def encryptString (sealF : List Nat → List Nat → List Nat → List Nat)
    (key nonce plaintext : List Nat) : Except String String :=
  if key.length = 32 then .ok (base64Encode (nonce ++ sealF key nonce plaintext))
  else .error "encryption key must be 32 bytes"

/-- `decrypt` (tenant service) / `DecryptString`: key-size check, base64
decode, length check against the 12-byte nonce size, split and
`gcm.Open` (`openAEAD`). -/
def decryptString (openAEAD : List Nat → List Nat → List Nat → Option (List Nat))
    (key : List Nat) (ciphertextB64 : String) : Except String (List Nat) :=
  if key.length = 32 then
    match base64Decode ciphertextB64 with
    | none => .error "illegal base64 data"
    | some data =>
        if data.length < 12 then .error "ciphertext too short"
        else match openAEAD key (data.take 12) (data.drop 12) with
          | some pt => .ok pt
          | none => .error "message authentication failed"
  else .error "decryption key must be 32 bytes"

/-- A concrete AEAD instance for exercising `secret_roundtrip`: the tag is
the 32-byte key itself, so opening with the wrong key fails. -/
def toySeal (key : List Nat) (_nonce plaintext : List Nat) : List Nat :=
  plaintext ++ key

/-- Opening counterpart of `toySeal`. -/
def toyOpen (key : List Nat) (_nonce ciphertext : List Nat) : Option (List Nat) :=
  if 32 ≤ ciphertext.length ∧ ciphertext.drop (ciphertext.length - 32) = key then
    some (ciphertext.take (ciphertext.length - 32))
  else none

/-! Helper lemmas about `countKey`. -/

theorem length_filter_map_congr {α : Type} (p : α → Bool) (g : α → α)
    (l : List α) (h : ∀ x, p (g x) = p x) :
    ((l.map fun x => if p x then g x else x).filter p).length = (l.filter p).length := by
  induction l with
  | nil => rfl
  | cons a l ih =>
      by_cases hp : p a
      · simp [List.filter, hp, h a, ih]
      · simp at hp
        simp [List.filter, hp, ih]

theorem mergeEvent_keyMatches (tid : Nat) (ty ext : String) (evt : ProviderEvent)
    (r : EventRow) :
    keyMatches tid ty ext (mergeEvent r evt) = keyMatches tid ty ext r := by
  simp [keyMatches, mergeEvent]

theorem countKey_saveEvent_conflict (t : EventsTable) (tid cid : Nat)
    (evt : ProviderEvent) (r : EventRow)
    (hfind : t.rows.find? (keyMatches tid evt.type evt.externalId) = some r) :
    countKey (saveEvent t tid cid evt).1 tid evt.type evt.externalId
      = countKey t tid evt.type evt.externalId := by
  simp only [saveEvent, hfind, countKey]
  exact length_filter_map_congr _ _ _
    (fun x => mergeEvent_keyMatches tid evt.type evt.externalId evt x)

theorem countKey_saveEvent_fresh (t : EventsTable) (tid cid : Nat)
    (evt : ProviderEvent)
    (hfind : t.rows.find? (keyMatches tid evt.type evt.externalId) = none) :
    countKey (saveEvent t tid cid evt).1 tid evt.type evt.externalId
      = countKey t tid evt.type evt.externalId + 1 := by
  simp only [saveEvent, hfind, countKey]
  rw [List.filter_append]
  simp [keyMatches]

theorem find?_of_countKey_pos (t : EventsTable) (tid : Nat) (ty ext : String)
    (h : 0 < countKey t tid ty ext) :
    ∃ r, t.rows.find? (keyMatches tid ty ext) = some r := by
  unfold countKey at h
  rcases List.length_pos.mp h with _
  cases hf : t.rows.find? (keyMatches tid ty ext) with
  | some r => exact ⟨r, rfl⟩
  | none =>
      exfalso
      have hall := List.find?_eq_none.mp hf
      have : t.rows.filter (keyMatches tid ty ext) = [] := by
        apply List.filter_eq_nil_iff.mpr
        intro a ha
        simpa using hall a ha
      rw [this] at h
      simp at h

theorem countKey_appendSeq_one (tid cid : Nat) (ty ext : String)
    (evts : List ProviderEvent) (t : EventsTable)
    (hkeys : ∀ e ∈ evts, e.type = ty ∧ e.externalId = ext)
    (hone : countKey t tid ty ext = 1) :
    countKey (appendSeq t tid cid evts) tid ty ext = 1 := by
  induction evts generalizing t with
  | nil => simpa [appendSeq] using hone
  | cons e es ih =>
      have hk := hkeys e (by simp)
      obtain ⟨r, hr⟩ := find?_of_countKey_pos t tid ty ext (by omega)
      have hstep : countKey (saveEvent t tid cid e).1 tid ty ext = 1 := by
        have := countKey_saveEvent_conflict t tid cid e r (by rw [hk.1, hk.2]; exact hr)
        rw [hk.1, hk.2] at this
        omega
      rw [appendSeq]
      exact ih _ (fun x hx => hkeys x (List.mem_cons_of_mem _ hx)) hstep

theorem find?_map_update {α : Type} (p : α → Bool) (g : α → α) (l : List α)
    (h : ∀ x, p (g x) = p x) :
    (l.map fun x => if p x then g x else x).find? p = (l.find? p).map g := by
  induction l with
  | nil => rfl
  | cons a l ih =>
      by_cases hp : p a
      · simp [List.find?, hp, h a]
      · simp at hp
        simp [List.find?, hp, ih]

theorem saveEvent_conflict_row (t : EventsTable) (tid cid : Nat)
    (x : ProviderEvent) (r : EventRow)
    (hfind : t.rows.find? (keyMatches tid x.type x.externalId) = some r) :
    (saveEvent t tid cid x).1.rows.find? (keyMatches tid x.type x.externalId)
      = some (mergeEvent r x) := by
  simp only [saveEvent, hfind]
  rw [find?_map_update _ _ _ (fun y => mergeEvent_keyMatches tid x.type x.externalId x y), hfind]
  rfl

theorem eventRepositoryInsert_conflict_row (t : EventsTable) (e : EventRow) (r : EventRow)
    (hfind : t.rows.find? (keyMatches e.tenantId e.eventType e.externalId) = some r) :
    (eventRepositoryInsert t e).1.rows.find? (keyMatches e.tenantId e.eventType e.externalId)
      = some (mergeEventFull r e) ∧ (eventRepositoryInsert t e).2 = r.id := by
  constructor
  · simp only [eventRepositoryInsert, hfind]
    rw [find?_map_update _ _ _ (fun y => by simp [keyMatches, mergeEventFull]), hfind]
    rfl
  · simp [eventRepositoryInsert, hfind]

/-- C2: for any sequence of event-store appends with the same
`(tenant_id, type, external_id)`, exactly one event row exists afterwards;
every append after the first refreshes the raw payload, overwrites
`invoice_ref`, `msisdn` (and `transaction_id` in `eventRepository.insert`,
where that field is present) only when the new value is non-empty and
`amount` only when the new value is positive, leaves `processing_status`
unchanged, and returns the id of the existing row. -/
theorem event_append_idempotent
    (t : EventsTable) (tid cid : Nat) (ty ext : String)
    (e : ProviderEvent) (es : List ProviderEvent)
    (hty : e.type = ty) (hext : e.externalId = ext)
    (hkeys : ∀ x ∈ es, x.type = ty ∧ x.externalId = ext)
    (habsent : countKey t tid ty ext = 0) :
    countKey (appendSeq t tid cid (e :: es)) tid ty ext = 1
    ∧ (∀ (t' : EventsTable) (x : ProviderEvent) (r : EventRow),
        t'.rows.find? (keyMatches tid x.type x.externalId) = some r →
        (saveEvent t' tid cid x).2 = r.id
        ∧ ∃ r', (saveEvent t' tid cid x).1.rows.find?
                  (keyMatches tid x.type x.externalId) = some r'
            ∧ r'.payloadJson = x.rawJson
            ∧ (x.invoiceRef ≠ "" → r'.invoiceRef = x.invoiceRef)
            ∧ (x.invoiceRef = "" → r'.invoiceRef = r.invoiceRef)
            ∧ (x.msisdn ≠ "" → r'.msisdn = x.msisdn)
            ∧ (x.msisdn = "" → r'.msisdn = r.msisdn)
            ∧ (x.amount > 0 → r'.amount = x.amount)
            ∧ (¬ x.amount > 0 → r'.amount = r.amount)
            ∧ r'.processingStatus = r.processingStatus
            ∧ r'.id = r.id)
    ∧ (∀ (t' : EventsTable) (x r : EventRow),
        t'.rows.find? (keyMatches x.tenantId x.eventType x.externalId) = some r →
        (eventRepositoryInsert t' x).2 = r.id
        ∧ ∃ r', (eventRepositoryInsert t' x).1.rows.find?
                  (keyMatches x.tenantId x.eventType x.externalId) = some r'
            ∧ r'.payloadJson = x.payloadJson
            ∧ (x.transactionId ≠ "" → r'.transactionId = x.transactionId)
            ∧ (x.transactionId = "" → r'.transactionId = r.transactionId)
            ∧ (x.invoiceRef ≠ "" → r'.invoiceRef = x.invoiceRef)
            ∧ (x.invoiceRef = "" → r'.invoiceRef = r.invoiceRef)
            ∧ (x.msisdn ≠ "" → r'.msisdn = x.msisdn)
            ∧ (x.msisdn = "" → r'.msisdn = r.msisdn)
            ∧ (x.amount > 0 → r'.amount = x.amount)
            ∧ (¬ x.amount > 0 → r'.amount = r.amount)
            ∧ r'.processingStatus = r.processingStatus) := by
  refine ⟨?_, ?_, ?_⟩
  · rw [appendSeq]
    apply countKey_appendSeq_one tid cid ty ext es _ hkeys
    have hfind : t.rows.find? (keyMatches tid e.type e.externalId) = none := by
      apply List.find?_eq_none.mpr
      intro a ha hp
      have : (t.rows.filter (keyMatches tid ty ext)).length = 0 := habsent
      have hnil : t.rows.filter (keyMatches tid ty ext) = [] :=
        List.eq_nil_of_length_eq_zero this
      have := List.filter_eq_nil_iff.mp hnil a ha
      rw [hty, hext] at hp
      exact this hp
    have := countKey_saveEvent_fresh t tid cid e hfind
    rw [hty, hext] at this
    omega
  · intro t' x r hfind
    exact ⟨by simp [saveEvent, hfind], mergeEvent r x,
      saveEvent_conflict_row t' tid cid x r hfind,
      rfl,
      fun h => by simp [mergeEvent, h],
      fun h => by simp [mergeEvent, h],
      fun h => by simp [mergeEvent, h],
      fun h => by simp [mergeEvent, h],
      fun h => by simp [mergeEvent, if_pos h],
      fun h => by simp [mergeEvent, if_neg h],
      by simp [mergeEvent],
      by simp [mergeEvent]⟩
  · intro t' x r hfind
    obtain ⟨h1, h2⟩ := eventRepositoryInsert_conflict_row t' x r hfind
    exact ⟨h2, mergeEventFull r x, h1,
      rfl,
      fun h => by simp [mergeEventFull, h],
      fun h => by simp [mergeEventFull, h],
      fun h => by simp [mergeEventFull, h],
      fun h => by simp [mergeEventFull, h],
      fun h => by simp [mergeEventFull, h],
      fun h => by simp [mergeEventFull, h],
      fun h => by simp [mergeEventFull, if_pos h],
      fun h => by simp [mergeEventFull, if_neg h],
      by simp [mergeEventFull]⟩

theorem upsertPendingPayment_conflict (t : PaymentsTable) (now tid cid : Nat)
    (invoice : String) (amount : Int) (ext : String) (r : PaymentRow)
    (hfind : t.rows.find? (payKey tid ext) = some r) :
    ∃ r', (upsertPendingPayment t now tid cid invoice amount ext).rows.find?
            (payKey tid ext) = some r'
      ∧ r'.amount = amount
      ∧ r'.invoiceNo = invoice
      ∧ r'.updatedAt = now
      ∧ r'.status = r.status
      ∧ r'.msisdnHash = r.msisdnHash
      ∧ r'.currency = r.currency
      ∧ r'.method = r.method
      ∧ r'.providerCredentialId = r.providerCredentialId
      ∧ r'.createdAt = r.createdAt
      ∧ r'.id = r.id
      ∧ (r.status = "completed" → r'.status = "completed") := by
  refine ⟨{ r with amount := amount, invoiceNo := invoice, updatedAt := now }, ?_,
    rfl, rfl, rfl, rfl, rfl, rfl, rfl, rfl, rfl, rfl, fun h => h⟩
  simp only [upsertPendingPayment, hfind]
  rw [find?_map_update _ _ _ (fun y => by simp [payKey]), hfind]
  rfl

/-- C10: when `UpsertPendingPayment` collides with an existing
`(tenant_id, external_id)` row, only `amount`, `invoice_no` and
`updated_at` change (the first two unconditionally); `status`,
`msisdn_hash`, `currency`, `method`, `provider_credential_id` and
`created_at` keep their previous values, so a payment already `completed`
is not reset to `pending` by a repeated STK initiation. -/
theorem upsertPendingPayment_frame (t : PaymentsTable) (now tid cid : Nat)
    (invoice : String) (amount : Int) (ext : String) (r : PaymentRow)
    (hfind : t.rows.find? (payKey tid ext) = some r) :
    ∃ r', (upsertPendingPayment t now tid cid invoice amount ext).rows.find?
            (payKey tid ext) = some r'
      ∧ r'.amount = amount
      ∧ r'.invoiceNo = invoice
      ∧ r'.updatedAt = now
      ∧ r'.status = r.status
      ∧ r'.msisdnHash = r.msisdnHash
      ∧ r'.currency = r.currency
      ∧ r'.method = r.method
      ∧ r'.providerCredentialId = r.providerCredentialId
      ∧ r'.createdAt = r.createdAt
      ∧ r'.id = r.id
      ∧ (r.status = "completed" → r'.status = "completed") :=
  upsertPendingPayment_conflict t now tid cid invoice amount ext r hfind

/-- Witness for `upsertPendingPayment_frame`: a repeated STK initiation on
a completed payment keeps the completed status. -/
theorem upsertPendingPayment_frame_witness :
    ∃ r', (upsertPendingPayment
            ⟨[⟨7, 1, "OLD", some "h", 40, "KES", "completed", "mpesa", some 10, "ws_CO_X1", 2, 3⟩], 8⟩
            5 1 10 "INV-7" 100 "ws_CO_X1").rows.find? (payKey 1 "ws_CO_X1") = some r'
      ∧ r'.amount = 100
      ∧ r'.invoiceNo = "INV-7"
      ∧ r'.updatedAt = 5
      ∧ r'.status = "completed"
      ∧ r'.msisdnHash = some "h"
      ∧ r'.currency = "KES"
      ∧ r'.method = "mpesa"
      ∧ r'.providerCredentialId = some 10
      ∧ r'.createdAt = 2
      ∧ r'.id = 7
      ∧ ("completed" = "completed" → r'.status = "completed") := by
  have h := upsertPendingPayment_frame
    ⟨[⟨7, 1, "OLD", some "h", 40, "KES", "completed", "mpesa", some 10, "ws_CO_X1", 2, 3⟩], 8⟩
    5 1 10 "INV-7" 100 "ws_CO_X1"
    ⟨7, 1, "OLD", some "h", 40, "KES", "completed", "mpesa", some 10, "ws_CO_X1", 2, 3⟩
    (by rfl)
  obtain ⟨r', h1, h2, h3, h4, h5, h6, h7, h8, h9, h10, h11, h12⟩ := h
  exact ⟨r', h1, h2, h3, h4, by rw [h5], by rw [h6], by rw [h7], by rw [h8],
    by rw [h9], by rw [h10], by rw [h11], fun _ => by rw [h5]⟩

theorem find?_append_none {α : Type} (p : α → Bool) (l1 l2 : List α)
    (h : l1.find? p = none) : (l1 ++ l2).find? p = l2.find? p := by
  induction l1 with
  | nil => rfl
  | cons a l ih =>
      rw [List.find?] at h
      cases hp : p a with
      | true => rw [hp] at h; exact absurd h (by simp)
      | false =>
          rw [hp] at h
          simpa [List.find?, hp] using ih h

theorem upsertPendingPayment_fresh (t : PaymentsTable) (now tid cid : Nat)
    (invoice : String) (amount : Int) (ext : String)
    (hnone : t.rows.find? (payKey tid ext) = none) :
    (upsertPendingPayment t now tid cid invoice amount ext).rows.find? (payKey tid ext)
      = some ⟨t.nextId, tid, invoice, none, amount, "KES", "pending", "mpesa",
              some cid, ext, now, now⟩ := by
  simp only [upsertPendingPayment, hnone]
  rw [find?_append_none _ _ _ hnone]
  simp [List.find?, payKey]

/-- Counterexample to C8: a queue row in status `delivering` (not `done`)
has its status, attempts and next_attempt_at reset by `enqueue`, where the
claim says they are left unchanged. -/
theorem enqueueEvent_counterexample :
    (enqueueEvent ⟨[⟨1, 1, 5, "delivering", 3, 50, "err", 7⟩], 2⟩ 100 1 5).rows.find?
        (fun q => q.eventId == 5)
      = some ⟨1, 1, 5, "pending", 0, 100, "err", 100⟩
    ∧ ("pending" : String) ≠ "delivering"
    ∧ (0 : Int) ≠ 3
    ∧ (100 : Nat) ≠ 50 := by
  exact ⟨rfl, by decide, by decide, by decide⟩

/-- C8 amended: `enqueue(tenant_id, event_id)` creates a pending queue row
when none exists for `event_id`; when a row exists it is reset to
`pending` with attempts zeroed and `next_attempt_at = now()` regardless of
its previous status (`done`, `pending`, `delivering` or `failed` alike). -/
theorem enqueueEvent_upsert (t : QueueTable) (now tid eid : Nat) :
    (t.rows.find? (fun q => q.eventId == eid) = none →
      (enqueueEvent t now tid eid).rows
        = t.rows ++ [⟨t.nextId, tid, eid, "pending", 0, now, "", now⟩])
    ∧ (∀ r, t.rows.find? (fun q => q.eventId == eid) = some r →
        (enqueueEvent t now tid eid).rows.find? (fun q => q.eventId == eid)
          = some { r with status := "pending", attempts := 0, nextAttemptAt := now, updatedAt := now }) := by
  constructor
  · intro hnone
    simp [enqueueEvent, hnone]
  · intro r hfind
    simp only [enqueueEvent, hfind]
    rw [find?_map_update _ _ _ (fun y => by simp), hfind]
    rfl

/-- Witness for `enqueueEvent_upsert`: fresh insert, and a reset of a row
previously in status `done`. -/
theorem enqueueEvent_upsert_witness :
    ((enqueueEvent ⟨[], 1⟩ 9 1 5).rows = [] ++ [⟨1, 1, 5, "pending", 0, 9, "", 9⟩])
    ∧ (enqueueEvent ⟨[⟨1, 1, 5, "done", 2, 4, "x", 4⟩], 2⟩ 9 1 5).rows.find?
        (fun q => q.eventId == 5)
      = some ⟨1, 1, 5, "pending", 0, 9, "x", 9⟩ := by
  refine ⟨(enqueueEvent_upsert ⟨[], 1⟩ 9 1 5).1 (by rfl), ?_⟩
  exact (enqueueEvent_upsert ⟨[⟨1, 1, 5, "done", 2, 4, "x", 4⟩], 2⟩ 9 1 5).2
    ⟨1, 1, 5, "done", 2, 4, "x", 4⟩ (by rfl)

/-- Witness for `event_append_idempotent`: two deliveries of the same C2B
callback leave exactly one event row. -/
theorem event_append_idempotent_witness :
    countKey (appendSeq ⟨[], 1⟩ 1 10
      [⟨"c2b", "ABC1", 50, "254712345678", "INV-9", "raw1"⟩,
       ⟨"c2b", "ABC1", 50, "", "", "raw2"⟩]) 1 "c2b" "ABC1" = 1 :=
  (event_append_idempotent ⟨[], 1⟩ 1 10 "c2b" "ABC1"
    ⟨"c2b", "ABC1", 50, "254712345678", "INV-9", "raw1"⟩
    [⟨"c2b", "ABC1", 50, "", "", "raw2"⟩]
    rfl rfl (by intro x hx; simp at hx; simp [hx]) (by rfl)).1

/-- Counterexample to C4: when a payment row for `(tenant_id, external_id)`
already exists in status `completed`, a 200 STK initiation answer is sent
while the row's status is `completed`, not `pending` (the conflict clause
of `UpsertPendingPayment` does not touch `status`). -/
theorem createSTK_counterexample :
    (createSTK (some 1) (some ⟨100, "254712345678", "INV-7", "", ""⟩) (some 10)
        (.ok ⟨"ws_CO_X1", "ok"⟩) false
        ⟨[⟨7, 1, "OLD", none, 40, "KES", "completed", "mpesa", some 10, "ws_CO_X1", 0, 0⟩], 8⟩
        5).2.1 = 200
    ∧ (createSTK (some 1) (some ⟨100, "254712345678", "INV-7", "", ""⟩) (some 10)
        (.ok ⟨"ws_CO_X1", "ok"⟩) false
        ⟨[⟨7, 1, "OLD", none, 40, "KES", "completed", "mpesa", some 10, "ws_CO_X1", 0, 0⟩], 8⟩
        5).1.rows.find? (payKey 1 "ws_CO_X1")
      = some ⟨7, 1, "INV-7", none, 100, "KES", "completed", "mpesa", some 10, "ws_CO_X1", 0, 5⟩
    ∧ ("completed" : String) ≠ "pending" := by
  exact ⟨rfl, rfl, by decide⟩

/-- C4 amended: for every STK initiation answered with 200, a payment row
keyed by `(tenant_id, external_id = checkout request id)` with the
requested amount and `invoice = account_ref` exists before the 200; the
row's status is `pending` when the row is newly created, while a
pre-existing row keeps its previous status.  If the payment write fails
after a successful provider call, the API returns 500 and no success
body. -/
theorem createSTK_persists_before_ok (tid credId : Nat) (req : StkReq)
    (out : STKPushResp) (t : PaymentsTable) (now : Nat)
    (hvalid : ¬(req.amount ≤ 0 ∨ req.phone = "" ∨ req.accountRef = "")) :
    createSTK (some tid) (some req) (some credId) (.ok out) true t now = (t, 500, none)
    ∧ (createSTK (some tid) (some req) (some credId) (.ok out) false t now).2.1 = 200
    ∧ (createSTK (some tid) (some req) (some credId) (.ok out) false t now).2.2 = some out
    ∧ ∃ r, (createSTK (some tid) (some req) (some credId) (.ok out) false t now).1.rows.find?
             (payKey tid out.checkoutRequestID) = some r
        ∧ r.amount = req.amount
        ∧ r.invoiceNo = req.accountRef
        ∧ (t.rows.find? (payKey tid out.checkoutRequestID) = none → r.status = "pending")
        ∧ (∀ r0, t.rows.find? (payKey tid out.checkoutRequestID) = some r0 →
             r.status = r0.status ∧ r.id = r0.id) := by
  refine ⟨by simp [createSTK, hvalid], by simp [createSTK, hvalid],
    by simp [createSTK, hvalid], ?_⟩
  cases hfind : t.rows.find? (payKey tid out.checkoutRequestID) with
  | none =>
      refine ⟨⟨t.nextId, tid, req.accountRef, none, req.amount, "KES", "pending", "mpesa",
        some credId, out.checkoutRequestID, now, now⟩, ?_, rfl, rfl, fun _ => rfl,
        fun r0 h0 => absurd h0 (by simp)⟩
      simp only [createSTK, hvalid, if_false]
      simpa using upsertPendingPayment_fresh t now tid credId req.accountRef req.amount
        out.checkoutRequestID hfind
  | some r0 =>
      obtain ⟨r', h1, h2, h3, h4, h5, h6, h7, h8, h9, h10, h11, h12⟩ :=
        upsertPendingPayment_conflict t now tid credId req.accountRef req.amount
          out.checkoutRequestID r0 hfind
      refine ⟨r', ?_, h2, h3, fun hcontra => absurd hcontra (by simp),
        fun r1 h1' => ?_⟩
      · simp only [createSTK, hvalid, if_false]
        simpa using h1
      · cases h1'
        exact ⟨h5, h11⟩

/-- Witness for `createSTK_persists_before_ok`: a fresh initiation against
an empty payments table creates the pending row before the 200. -/
theorem createSTK_persists_before_ok_witness :
    createSTK (some 1) (some ⟨100, "254712345678", "INV-7", "", ""⟩) (some 10)
        (.ok ⟨"ws_CO_X1", "ok"⟩) true ⟨[], 1⟩ 5 = (⟨[], 1⟩, 500, none)
    ∧ (createSTK (some 1) (some ⟨100, "254712345678", "INV-7", "", ""⟩) (some 10)
        (.ok ⟨"ws_CO_X1", "ok"⟩) false ⟨[], 1⟩ 5).2.1 = 200
    ∧ (createSTK (some 1) (some ⟨100, "254712345678", "INV-7", "", ""⟩) (some 10)
        (.ok ⟨"ws_CO_X1", "ok"⟩) false ⟨[], 1⟩ 5).2.2 = some ⟨"ws_CO_X1", "ok"⟩
    ∧ ∃ r, (createSTK (some 1) (some ⟨100, "254712345678", "INV-7", "", ""⟩) (some 10)
             (.ok ⟨"ws_CO_X1", "ok"⟩) false ⟨[], 1⟩ 5).1.rows.find?
             (payKey 1 "ws_CO_X1") = some r
        ∧ r.amount = 100
        ∧ r.invoiceNo = "INV-7"
        ∧ ((⟨[], 1⟩ : PaymentsTable).rows.find? (payKey 1 "ws_CO_X1") = none →
            r.status = "pending")
        ∧ (∀ r0, (⟨[], 1⟩ : PaymentsTable).rows.find? (payKey 1 "ws_CO_X1") = some r0 →
            r.status = r0.status ∧ r.id = r0.id) :=
  createSTK_persists_before_ok 1 10 ⟨100, "254712345678", "INV-7", "", ""⟩
    ⟨"ws_CO_X1", "ok"⟩ ⟨[], 1⟩ 5 (by decide)

/-- C6: for a resolved credential, paybill mode with `bill_ref_required`
and an empty trimmed bill ref answers code 1 "BillRef required"; paybill
mode whose (trimmed) regex is non-empty and does not match the bill ref —
and on which the required-rule did not already fire — answers code 1
"BillRef invalid"; buygoods mode accepts with code 0 regardless of the
bill ref; and no event or payment row is written in any case. -/
theorem c2bValidation_rules (rxMatch : String → String → Bool)
    (cred : C2BCredential) (bill : String) (st : EventsTable × PaymentsTable) :
    (cred.c2bMode = "paybill" → cred.billRefRequired = true → trimString bill = "" →
      mpesaC2BValidation rxMatch (some cred) bill st = (st, ⟨1, "BillRef required"⟩))
    ∧ (cred.c2bMode = "paybill" → ¬(cred.billRefRequired = true ∧ trimString bill = "") →
        trimString cred.billRefRegex ≠ "" → rxMatch (trimString cred.billRefRegex) bill = false →
        mpesaC2BValidation rxMatch (some cred) bill st = (st, ⟨1, "BillRef invalid"⟩))
    ∧ (cred.c2bMode = "buygoods" →
        mpesaC2BValidation rxMatch (some cred) bill st = (st, ⟨0, "Accepted"⟩))
    ∧ (∀ lookup, (mpesaC2BValidation rxMatch lookup bill st).1 = st) := by
  refine ⟨?_, ?_, ?_, ?_⟩
  · intro hmode hreq htrim
    simp [mpesaC2BValidation, hmode, hreq, htrim]
  · intro hmode hnot hrx hm
    have : ¬(cred.billRefRequired ∧ trimString bill = "") := by
      intro ⟨a, b⟩; exact hnot ⟨a, b⟩
    simp only [mpesaC2BValidation, hmode, if_true]
    rw [if_neg this, if_pos ⟨hrx, hm⟩]
  · intro hmode
    have : ¬(cred.c2bMode = "paybill") := by rw [hmode]; decide
    simp [mpesaC2BValidation, this]
  · intro lookup
    cases lookup with
    | none => rfl
    | some c =>
        simp only [mpesaC2BValidation]
        by_cases h1 : c.c2bMode = "paybill" <;>
          by_cases h2 : c.billRefRequired ∧ trimString bill = "" <;>
            by_cases h3 : trimString c.billRefRegex ≠ "" ∧ rxMatch (trimString c.billRefRegex) bill = false <;>
              simp [h1, h2, h3]

/-- Witness for `c2bValidation_rules`: paybill with a required, empty bill
ref is rejected with "BillRef required"; a non-matching "XYZ" is rejected
with "BillRef invalid"; buygoods accepts. -/
theorem c2bValidation_rules_witness :
    mpesaC2BValidation (fun _ s => s = "INV-12") (some ⟨"paybill", true, "^INV"⟩) ""
        (⟨[], 1⟩, ⟨[], 1⟩) = ((⟨[], 1⟩, ⟨[], 1⟩), ⟨1, "BillRef required"⟩)
    ∧ mpesaC2BValidation (fun _ s => s = "INV-12") (some ⟨"paybill", false, "^INV"⟩) "XYZ"
        (⟨[], 1⟩, ⟨[], 1⟩) = ((⟨[], 1⟩, ⟨[], 1⟩), ⟨1, "BillRef invalid"⟩)
    ∧ mpesaC2BValidation (fun _ s => s = "INV-12") (some ⟨"buygoods", true, "^INV"⟩) ""
        (⟨[], 1⟩, ⟨[], 1⟩) = ((⟨[], 1⟩, ⟨[], 1⟩), ⟨0, "Accepted"⟩) := by
  refine ⟨?_, ?_, ?_⟩
  · exact (c2bValidation_rules (fun _ s => s = "INV-12") ⟨"paybill", true, "^INV"⟩ ""
      (⟨[], 1⟩, ⟨[], 1⟩)).1 rfl rfl rfl
  · exact (c2bValidation_rules (fun _ s => s = "INV-12") ⟨"paybill", false, "^INV"⟩ "XYZ"
      (⟨[], 1⟩, ⟨[], 1⟩)).2.1 rfl (by simp) (by decide) (by decide)
  · exact (c2bValidation_rules (fun _ s => s = "INV-12") ⟨"buygoods", true, "^INV"⟩ ""
      (⟨[], 1⟩, ⟨[], 1⟩)).2.2.1 rfl

/-- Counterexample to C7: the adapter's `parseSTKCallback` does not accept
a string-valued `Amount` — it yields 0 where the same amount as a JSON
number yields 100 — so numeric metadata is not accepted in all three
forms by the adapter's parsing. -/
theorem adapter_amount_counterexample :
    adapterSTKAmount [("Amount", JVal.str "100")] = 0
    ∧ adapterSTKAmount [("Amount", JVal.num 100)] = 100
    ∧ (0 : Int) ≠ 100 := by
  exact ⟨rfl, rfl, by decide⟩

/-- C7 amended: the worker's re-parse (`stkPayload.extractAmount`,
`extractMSISDN`, `c2bPayload.extractAmount`) accepts numeric metadata as
JSON number or as numeric string and yields the same canonical value;
the adapter's `parseSTKCallback` accepts `Amount` only as a JSON number
(string-valued amounts yield 0) while it does accept `PhoneNumber` as
number or string. -/
theorem numeric_metadata_forms (n : Int) (s : String)
    (hs : parseGoFloatTrunc s = some n) :
    extractAmount [("Amount", JVal.num n)] = n
    ∧ extractAmount [("Amount", JVal.str s)] = n
    ∧ c2bExtractAmount [("TransAmount", JVal.num n)] = n
    ∧ c2bExtractAmount [("TransAmount", JVal.str s)] = n
    ∧ extractMSISDN [("PhoneNumber", JVal.num n)] = toString n
    ∧ (∀ s', extractMSISDN [("PhoneNumber", JVal.str s')] = s')
    ∧ adapterSTKAmount [("Amount", JVal.num n)] = n
    ∧ (∀ s', adapterSTKAmount [("Amount", JVal.str s')] = 0)
    ∧ adapterSTKMsisdn [("PhoneNumber", JVal.num n)] = toString n
    ∧ (∀ s', adapterSTKMsisdn [("PhoneNumber", JVal.str s')] = s') := by
  refine ⟨rfl, ?_, rfl, ?_, rfl, fun s' => rfl, rfl, fun s' => rfl, rfl, fun s' => rfl⟩
  · simp [extractAmount, List.findSome?, stkAmountValue, hs]
  · simp [c2bExtractAmount, List.find?, hs]

/-- Witness for `numeric_metadata_forms` at the numeric string "100". -/
theorem numeric_metadata_forms_witness :
    extractAmount [("Amount", JVal.num 100)] = 100
    ∧ extractAmount [("Amount", JVal.str "100")] = 100 :=
  ⟨(numeric_metadata_forms 100 "100" (by decide)).1,
   (numeric_metadata_forms 100 "100" (by decide)).2.1⟩

/-- Counterexample to C9: the repository-level `MarkForReprocessing` —
the operation the replay service actually invokes — is not rejected on a
pending event (it moves it to `queued`), and the repository-level
`MarkProcessed` moves a completed event to `failed`, so an operation
other than replay can move an event out of `completed`. -/
theorem reprocessing_guard_counterexample :
    (repoMarkForReprocessing
        ⟨[⟨1, 1, 10, "stk", "X", "raw", "", "", 0, "", "", "", "pending", none⟩], 2⟩ 1 1).rows
      = [⟨1, 1, 10, "stk", "X", "raw", "", "", 0, "", "", "", "queued", none⟩]
    ∧ ("queued" : String) ≠ "pending"
    ∧ (repoMarkProcessed
        ⟨[⟨1, 1, 10, "stk", "X", "raw", "", "", 0, "", "", "", "completed", some 3⟩], 2⟩
        1 "failed" 9).rows
      = [⟨1, 1, 10, "stk", "X", "raw", "", "", 0, "", "", "", "failed", some 9⟩]
    ∧ ("failed" : String) ≠ "completed" := by
  exact ⟨rfl, by decide, rfl, by decide⟩

/-- C9 amended: at the domain level the guards hold — `MarkForReprocessing`
is rejected exactly when the event is already pending and otherwise sets
`queued` and clears `processed_at`; from `completed` the only transition
`CanChangeStatus` permits is to `queued`, so `UpdateProcessingStatus`
rejects every other move out of `completed`; and the event-store append
never changes `processing_status` of an existing row.  The
repository-level `MarkForReprocessing` used by the replay service,
however, applies unconditionally — also to pending events. -/
theorem completed_only_replay (e : DomainEvent) (s : PStatus) (now : Nat)
    (t : EventsTable) (tid eid : Nat) :
    (e.processingStatus = .pending → markForReprocessing e = .error "event is already pending processing")
    ∧ (e.processingStatus ≠ .pending →
        markForReprocessing e = .ok { e with processingStatus := .queued, processedAt := none })
    ∧ (canChangeStatus .completed s = true ↔ s = .queued)
    ∧ (e.processingStatus = .completed → s ≠ .queued →
        updateProcessingStatus e s now = .error "cannot change status")
    ∧ (∀ r ∈ t.rows, (r.id = eid ∧ r.tenantId = tid) →
        { r with processingStatus := "queued", processedAt := none }
          ∈ (repoMarkForReprocessing t tid eid).rows)
    ∧ (∀ (t' : EventsTable) (tid' cid : Nat) (x : ProviderEvent) (r : EventRow),
        t'.rows.find? (keyMatches tid' x.type x.externalId) = some r →
        ∃ r', (saveEvent t' tid' cid x).1.rows.find? (keyMatches tid' x.type x.externalId)
                = some r' ∧ r'.processingStatus = r.processingStatus) := by
  refine ⟨?_, ?_, ?_, ?_, ?_, ?_⟩
  · intro h
    simp [markForReprocessing, h]
  · intro h
    simp only [markForReprocessing]
    rw [if_neg (by simpa using h)]
  · cases s <;> simp [canChangeStatus]
  · intro hc hs
    have hfalse : canChangeStatus e.processingStatus s = false := by
      rw [hc]; cases s <;> simp_all [canChangeStatus]
    simp [updateProcessingStatus, hfalse]
  · intro r hr ⟨h1, h2⟩
    unfold repoMarkForReprocessing
    have : ({ r with processingStatus := "queued", processedAt := none } : EventRow)
        = (fun r' => if r'.id == eid && r'.tenantId == tid then
            { r' with processingStatus := "queued", processedAt := none } else r') r := by
      simp [h1, h2]
    rw [this]
    exact List.mem_map_of_mem _ hr
  · intro t' tid' cid x r hfind
    exact ⟨mergeEvent r x, saveEvent_conflict_row t' tid' cid x r hfind, rfl⟩

/-- Witness for `completed_only_replay`: a completed event is accepted for
replay (moved to `queued`, `processed_at` cleared) and rejected for any
direct move to `failed`. -/
theorem completed_only_replay_witness :
    markForReprocessing ⟨.completed, some 3⟩
      = .ok { (⟨.completed, some 3⟩ : DomainEvent) with processingStatus := .queued, processedAt := none }
    ∧ updateProcessingStatus ⟨.completed, some 3⟩ .failed 9 = .error "cannot change status" :=
  ⟨(completed_only_replay ⟨.completed, some 3⟩ .failed 9 ⟨[], 1⟩ 1 1).2.1 (by decide),
   (completed_only_replay ⟨.completed, some 3⟩ .failed 9 ⟨[], 1⟩ 1 1).2.2.2.1 rfl (by decide)⟩

/-- C3 failing run: with a failing commit, the payment insert is applied
(one payment row exists) while the event's processing-status update is
not (the event row is unchanged), so the two writes are not atomic. -/
theorem processPaymentEvent_not_atomic :
    (processPaymentEvent (fun s => s) false
        ⟨⟨[⟨1, 1, 10, "c2b", "ABC1", "raw", "", "", 0, "", "", "", "pending", none⟩], 2⟩, ⟨[], 1⟩⟩
        1 1 10 "ABC1" "INV-9" "254712345678" 50 "completed" 7).1.payments.rows.length = 1
    ∧ (processPaymentEvent (fun s => s) false
        ⟨⟨[⟨1, 1, 10, "c2b", "ABC1", "raw", "", "", 0, "", "", "", "pending", none⟩], 2⟩, ⟨[], 1⟩⟩
        1 1 10 "ABC1" "INV-9" "254712345678" 50 "completed" 7).1.events
      = ⟨[⟨1, 1, 10, "c2b", "ABC1", "raw", "", "", 0, "", "", "", "pending", none⟩], 2⟩
    ∧ (processPaymentEvent (fun s => s) false
        ⟨⟨[⟨1, 1, 10, "c2b", "ABC1", "raw", "", "", 0, "", "", "", "pending", none⟩], 2⟩, ⟨[], 1⟩⟩
        1 1 10 "ABC1" "INV-9" "254712345678" 50 "completed" 7).2
      = .error "failed to mark event processed" := by
  exact ⟨rfl, rfl, rfl⟩

/-- C1 failing run: `WebhookByShortcode` acknowledges a valid C2B callback
with 200 while the event store still has no row for the callback's
`(tenant_id, type, external_id)` — the handler never appends the event.
By contrast, `MpesaC2BConfirmation` refuses to ACK when the event-store
write fails (500, state unchanged) and on success has the event row
durably present at the moment of the 200. -/
theorem webhook_ack_without_event_row :
    (webhookByShortcode (fun s => s) true "174379" (some ⟨1, 10, "tok"⟩) true true
        (some ⟨"c2b", "ABC1", 50, "254712345678", "INV-9", "raw"⟩)
        (some ("INV-9", "254712345678", 50, true))
        ⟨⟨[], 1⟩, ⟨[], 1⟩⟩ 7).2 = 200
    ∧ countKey (webhookByShortcode (fun s => s) true "174379" (some ⟨1, 10, "tok"⟩) true true
        (some ⟨"c2b", "ABC1", 50, "254712345678", "INV-9", "raw"⟩)
        (some ("INV-9", "254712345678", 50, true))
        ⟨⟨[], 1⟩, ⟨[], 1⟩⟩ 7).1.events 1 "c2b" "ABC1" = 0
    ∧ (mpesaC2BConfirmation (fun s => s) (fun _ => 50) true false false (some (1, 10))
        ⟨"ABC1", "50.00", "174379", "INV-9", "254712345678", "raw"⟩
        ⟨[], 1⟩ ⟨[], 1⟩ ⟨[], 1⟩ 7).2 = 500
    ∧ (mpesaC2BConfirmation (fun s => s) (fun _ => 50) true false false (some (1, 10))
        ⟨"ABC1", "50.00", "174379", "INV-9", "254712345678", "raw"⟩
        ⟨[], 1⟩ ⟨[], 1⟩ ⟨[], 1⟩ 7).1.1.rows = []
    ∧ (mpesaC2BConfirmation (fun s => s) (fun _ => 50) false false false (some (1, 10))
        ⟨"ABC1", "50.00", "174379", "INV-9", "254712345678", "raw"⟩
        ⟨[], 1⟩ ⟨[], 1⟩ ⟨[], 1⟩ 7).2 = 200
    ∧ countKey (mpesaC2BConfirmation (fun s => s) (fun _ => 50) false false false (some (1, 10))
        ⟨"ABC1", "50.00", "174379", "INV-9", "254712345678", "raw"⟩
        ⟨[], 1⟩ ⟨[], 1⟩ ⟨[], 1⟩ 7).1.1 1 "c2b" "ABC1" = 1 := by
  exact ⟨rfl, rfl, rfl, rfl, rfl, rfl⟩

theorem decChar_encChar : ∀ i, i < 64 → decChar (encChar i) = some i := by decide

theorem encChar_ne_pad : ∀ i, i < 64 → encChar i ≠ '=' := by decide

theorem base64_chunks_roundtrip :
    ∀ (l : List Nat), (∀ b ∈ l, b < 256) →
      base64DecodeChunks (base64EncodeChunks l) = some l
  | [], _ => rfl
  | [a], h => by
      have ha : a < 256 := h a (by simp)
      have d0 := decChar_encChar (a / 4) (by omega)
      have d1 := decChar_encChar (a % 4 * 16) (by omega)
      simp only [base64EncodeChunks, base64DecodeChunks, d0, d1]
      simp only [Option.some.injEq, List.cons.injEq, and_true, reduceIte]
      omega
  | [a, b], h => by
      have ha : a < 256 := h a (by simp)
      have hb : b < 256 := h b (by simp)
      have d0 := decChar_encChar (a / 4) (by omega)
      have d1 := decChar_encChar (a % 4 * 16 + b / 16) (by omega)
      have d2 := decChar_encChar (b % 16 * 4) (by omega)
      have n2 := encChar_ne_pad (b % 16 * 4) (by omega)
      simp only [base64EncodeChunks, base64DecodeChunks, d0, d1]
      rw [if_neg n2]
      simp only [d2, Option.some.injEq, List.cons.injEq, and_true, reduceIte]
      omega
  | a :: b :: c :: rest, h => by
      have ha : a < 256 := h a (by simp)
      have hb : b < 256 := h b (by simp)
      have hc : c < 256 := h c (by simp)
      have ih := base64_chunks_roundtrip rest (fun x hx => h x (by simp [hx]))
      have d0 := decChar_encChar (a / 4) (by omega)
      have d1 := decChar_encChar (a % 4 * 16 + b / 16) (by omega)
      have d2 := decChar_encChar (b % 16 * 4 + c / 64) (by omega)
      have d3 := decChar_encChar (c % 64) (by omega)
      have n2 := encChar_ne_pad (b % 16 * 4 + c / 64) (by omega)
      have n3 := encChar_ne_pad (c % 64) (by omega)
      simp only [base64EncodeChunks, List.cons_append, List.nil_append,
        base64DecodeChunks, d0, d1]
      rw [if_neg n2]
      simp only [d2]
      rw [if_neg n3]
      simp only [d3, List.append_eq, List.nil_append, ih, List.cons_append,
        Option.some.injEq, List.cons.injEq, and_true]
      omega

theorem base64_roundtrip (bytes : List Nat) (h : ∀ b ∈ bytes, b < 256) :
    base64Decode (base64Encode bytes) = some bytes :=
  base64_chunks_roundtrip bytes h

/-- C5: with 32-byte keys and the AEAD contract of the standard library's
GCM object (`Open` inverts `Seal`; `Open` rejects unauthentic input, in
particular under a different key), decrypt inverts encrypt for every
plaintext; and decrypt fails whenever the input is not valid base64, the
decoded bytes are shorter than the 12-byte nonce, the tag does not
verify, or the decryption key differs from the encryption key. -/
theorem secret_roundtrip
    (sealF : List Nat → List Nat → List Nat → List Nat)
    (openAEAD : List Nat → List Nat → List Nat → Option (List Nat))
    (key key2 nonce plaintext : List Nat)
    (hkey : key.length = 32) (hkey2 : key2.length = 32)
    (hnonce : nonce.length = 12)
    (hbytes : ∀ b ∈ nonce ++ sealF key nonce plaintext, b < 256)
    (hopen : openAEAD key nonce (sealF key nonce plaintext) = some plaintext) :
    (∀ ct, encryptString sealF key nonce plaintext = .ok ct →
        decryptString openAEAD key ct = .ok plaintext)
    ∧ (∀ s, base64Decode s = none →
        decryptString openAEAD key s = .error "illegal base64 data")
    ∧ (∀ s data, base64Decode s = some data → data.length < 12 →
        decryptString openAEAD key s = .error "ciphertext too short")
    ∧ (∀ s data, base64Decode s = some data → ¬ data.length < 12 →
        openAEAD key (data.take 12) (data.drop 12) = none →
        decryptString openAEAD key s = .error "message authentication failed")
    ∧ (openAEAD key2 nonce (sealF key nonce plaintext) = none →
        ∀ ct, encryptString sealF key nonce plaintext = .ok ct →
          decryptString openAEAD key2 ct = .error "message authentication failed") := by
  have hencrypt : encryptString sealF key nonce plaintext
      = .ok (base64Encode (nonce ++ sealF key nonce plaintext)) := by
    simp [encryptString, hkey]
  have hdec : base64Decode (base64Encode (nonce ++ sealF key nonce plaintext))
      = some (nonce ++ sealF key nonce plaintext) := base64_roundtrip _ hbytes
  have hlen : ¬ (nonce ++ sealF key nonce plaintext).length < 12 := by
    rw [List.length_append, hnonce]; omega
  have htake : (nonce ++ sealF key nonce plaintext).take 12 = nonce := by
    rw [← hnonce]; exact List.take_left nonce _
  have hdrop : (nonce ++ sealF key nonce plaintext).drop 12 = sealF key nonce plaintext := by
    rw [← hnonce]; exact List.drop_left nonce _
  refine ⟨?_, ?_, ?_, ?_, ?_⟩
  · intro ct hct
    rw [hencrypt] at hct
    cases hct
    simp only [decryptString, hkey, if_pos rfl, hdec]
    rw [if_neg hlen, htake, hdrop, hopen]
    simp
  · intro s hs
    simp [decryptString, hkey, hs]
  · intro s data hs hlt
    simp only [decryptString, hkey, if_pos rfl, hs]
    rw [if_pos hlt]
    simp
  · intro s data hs hlt hfail
    simp only [decryptString, hkey, if_pos rfl, hs]
    rw [if_neg hlt, hfail]
    simp
  · intro hwrong ct hct
    rw [hencrypt] at hct
    cases hct
    simp only [decryptString, hkey2, if_pos rfl, hdec]
    rw [if_neg hlen, htake, hdrop, hwrong]
    simp

/-- Witness for `secret_roundtrip`: a full round trip at a concrete key,
nonce and plaintext, and failure under a different 32-byte key. -/
theorem secret_roundtrip_witness :
    decryptString toyOpen (List.replicate 32 0)
        (base64Encode (List.replicate 12 1
          ++ toySeal (List.replicate 32 0) (List.replicate 12 1) [1, 2, 3]))
      = .ok [1, 2, 3]
    ∧ decryptString toyOpen (7 :: List.replicate 31 0)
        (base64Encode (List.replicate 12 1
          ++ toySeal (List.replicate 32 0) (List.replicate 12 1) [1, 2, 3]))
      = .error "message authentication failed" := by
  constructor
  · exact (secret_roundtrip toySeal toyOpen (List.replicate 32 0) (7 :: List.replicate 31 0)
      (List.replicate 12 1) [1, 2, 3] (by decide) (by decide) (by decide)
      (by decide) (by decide)).1 _ rfl
  · exact (secret_roundtrip toySeal toyOpen (List.replicate 32 0) (7 :: List.replicate 31 0)
      (List.replicate 12 1) [1, 2, 3] (by decide) (by decide) (by decide)
      (by decide) (by decide)).2.2.2.2 (by decide) _ rfl
